import Mathlib

/-
Shallow embedding of the Stage layer of rockit (src/rockit/stage.py).

Symbols of the external symbolic engine (casadi MX) are modelled as
integer identifiers carrying a shape; expressions are a small tree with
exactly the operations the Stage layer manipulates.  Identity-keyed
Python dictionaries (HashDict, HashOrderedDict) become association
lists keyed by symbol identity with insert-or-overwrite semantics, so
insertion order is preserved as in CPython.  The fresh-symbol supply of
MX.sym is an explicit counter threaded through every operation; the
tree-wide transcribed flag owned by the master stage is an
Option Bool (none when the stage has no master, mirroring the
None-guard in the source).  Python exceptions leave the mutated object
observable, so fallible operations return the error message together
with the state at raise time rather than an Except that drops it.
-/

namespace Rockit

/-- Symbol of the external symbolic engine: identity plus fixed shape. -/
structure Sym where
  id : Nat
  rows : Nat
  cols : Nat
deriving DecidableEq, Repr

/-- Expression tree over symbols, with the operations the Stage layer uses:
constants, addition, negation, comparisons, and a not-a-number fill value
of a given shape (DM.nan). -/
inductive Expr where
  | sym (s : Sym)
  | const (q : ℚ)
  | nan (rows cols : Nat)
  | add (a b : Expr)
  | neg (a : Expr)
  | le (a b : Expr)
  | ge (a b : Expr)
deriving DecidableEq, Repr

/-- Symbols occurring in an expression. -/
def Expr.syms : Expr → List Sym
  | .sym s => [s]
  | .const _ => []
  | .nan _ _ => []
  | .add a b => a.syms ++ b.syms
  | .neg a => a.syms
  | .le a b => a.syms ++ b.syms
  | .ge a b => a.syms ++ b.syms

/-- Shape of an expression (MX shape calculus restricted to the
shape-preserving operations used here). -/
def Expr.shape : Expr → Nat × Nat
  | .sym s => (s.rows, s.cols)
  | .const _ => (1, 1)
  | .nan r c => (r, c)
  | .add a _ => a.shape
  | .neg a => a.shape
  | .le a _ => a.shape
  | .ge a _ => a.shape

/-- Boolean membership of a symbol in a list. -/
def memSym (v : Sym) : List Sym → Bool
  | [] => false
  | u :: rest => if v = u then true else memSym v rest

/-- Engine dependency query: does the expression mention any of the
given symbols (casadi depends_on)? -/
def dependsOn (e : Expr) (ss : List Sym) : Bool :=
  e.syms.any fun v => memSym v ss

/-- Insert-or-overwrite into an association list, keeping the position
of an existing key (CPython dict assignment). -/
def insertKV {κ α : Type} [DecidableEq κ] : List (κ × α) → κ → α → List (κ × α)
  | [], k, v => [(k, v)]
  | (k', v') :: rest, k, v =>
    if k' = k then (k, v) :: rest else (k', v') :: insertKV rest k v

/-- Lookup in an association list. -/
def lookupKV {κ α : Type} [DecidableEq κ] : List (κ × α) → κ → Option α
  | [], _ => none
  | (k', v') :: rest, k => if k' = k then some v' else lookupKV rest k

/-- Simultaneous symbol-for-symbol substitution map applied to one symbol. -/
def substSym (σ : List (Sym × Sym)) (s : Sym) : Sym :=
  (lookupKV σ s).getD s

/-- Engine substitution (casadi substitute) for a symbol-to-symbol map:
every listed symbol is replaced in one simultaneous pass. -/
def substExpr (σ : List (Sym × Sym)) : Expr → Expr
  | .sym s => .sym (substSym σ s)
  | .const q => .const q
  | .nan r c => .nan r c
  | .add a b => .add (substExpr σ a) (substExpr σ b)
  | .neg a => .neg (substExpr σ a)
  | .le a b => .le (substExpr σ a) (substExpr σ b)
  | .ge a b => .ge (substExpr σ a) (substExpr σ b)

/-- Engine bulk substitution over a batch of expressions: one consistent
pass (the single substitute call of the source). -/
def substituteL (σ : List (Sym × Sym)) (l : List Expr) : List Expr :=
  l.map (substExpr σ)

/-- A start-time or horizon value: a concrete number, a FreeTime
sentinel carrying its initial-guess hint, or an expression (after the
sentinel was replaced by a decision variable). -/
inductive TimeVal where
  | num (q : ℚ)
  | freetime (hint : ℚ)
  | ex (e : Expr)
deriving DecidableEq, Repr

/-- Per-constraint options recorded by subject_to. -/
structure ConstraintArgs where
  grid : String
  include_first : Bool
  include_last : Bool
deriving DecidableEq, Repr

/-- Ambient state outside a single Stage: the fresh-symbol supply of the
engine, the transcribed flag of the master (none when the stage tree has
no master, as for a bare root Stage), and the dirty mark of the master
placeholder store. -/
structure World where
  fresh : Nat
  transcribed : Option Bool
  phDirty : Bool
deriving DecidableEq, Repr

/-- Mint a fresh symbol of the given shape (MX.sym). -/
def freshSym (w : World) (rows cols : Nat) : World × Sym :=
  ({ w with fresh := w.fresh + 1 }, ⟨w.fresh, rows, cols⟩)

/-- Stage._set_transcribed: write the master flag when a master exists. -/
def setTranscribed (w : World) (v : Bool) : World :=
  { w with transcribed := w.transcribed.map fun _ => v }

/-- Mark the master placeholder store dirty when a master exists. -/
def markPhDirty (w : World) : World :=
  if w.transcribed.isSome then { w with phDirty := true } else w

/-- The Stage data model (Stage.__init__ attribute for attribute).
Sub-stages are kept as the identifiers of their time symbols; the child
objects themselves are returned by the creating operation.  Constraint
metadata (get_meta provenance) is external bookkeeping and omitted. -/
structure Stage where
  states : List Sym
  qstates : List Sym
  controls : List Sym
  algebraics : List Sym
  parameters : List (String × Sym)
  variables' : List (String × Sym)
  param_vals : List (Sym × ℚ)
  state_der : List (Sym × Expr)
  state_next : List (Sym × Expr)
  alg : List Expr
  constraints : List (String × List (Expr × ConstraintArgs))
  objective : Expr
  initial : List (Expr × ℚ)
  placeholders : List (Sym × Expr)
  placeholder_callbacks : List (Sym × String)
  offsets : List (Sym × Expr × Int)
  inf_inert : List (Sym × Expr)
  inf_der : List (Sym × Expr)
  tsym : Sym
  Tph : Sym
  t0ph : Sym
  tT : TimeVal
  tt0 : TimeVal
  tfExpr : Expr
  methodTag : Nat
  substages : List Nat
deriving DecidableEq, Repr

namespace Stage

/-- Stage.state: mint a fresh symbol, append it to the state sequence
(or the quadrature-state sequence when quad is set), mark untranscribed. -/
def state (s : Stage) (w : World) (rows cols : Nat) (quad : Bool) :
    Stage × World × Sym :=
  let (w, x) := freshSym w rows cols
  let s := if quad then { s with qstates := s.qstates ++ [x] }
           else { s with states := s.states ++ [x] }
  (s, setTranscribed w false, x)

/-- Stage.algebraic. -/
def algebraic (s : Stage) (w : World) (rows cols : Nat) :
    Stage × World × Sym :=
  let (w, z) := freshSym w rows cols
  ({ s with algebraics := s.algebraics ++ [z] }, setTranscribed w false, z)

/-- Stage.variable: append a fresh symbol under the given grid tag. -/
def variable' (s : Stage) (w : World) (rows cols : Nat) (grid : String) :
    Stage × World × Sym :=
  let (w, v) := freshSym w rows cols
  ({ s with variables' := s.variables' ++ [(grid, v)] }, setTranscribed w false, v)

/-- Stage.parameter. -/
def parameter (s : Stage) (w : World) (rows cols : Nat) (grid : String) :
    Stage × World × Sym :=
  let (w, p) := freshSym w rows cols
  ({ s with parameters := s.parameters ++ [(grid, p)] }, setTranscribed w false, p)

/-- Stage.set_der: the flag is cleared first, then the assertion that no
next-state rule exists is checked before anything is inserted. -/
def setDer (s : Stage) (w : World) (x : Sym) (d : Expr) :
    Option String × Stage × World :=
  let w := setTranscribed w false
  if s.state_next.isEmpty then
    (none, { s with state_der := insertKV s.state_der x d }, w)
  else
    (some "assert not self state_next", s, w)

/-- Stage.set_next: the flag is cleared and the next-state entry is
inserted, and only then is the assertion that no derivative rule exists
checked, so a failing call returns with the entry already present. -/
def setNext (s : Stage) (w : World) (x : Sym) (n : Expr) :
    Option String × Stage × World :=
  let w := setTranscribed w false
  let s := { s with state_next := insertKV s.state_next x n }
  if s.state_der.isEmpty then
    (none, s, w)
  else
    (some "assert not self state_der", s, w)

/-- Stage.control: order zero mints a raw control symbol; order k is a
state whose derivative is an order k-1 control. -/
def control (s : Stage) (w : World) (rows cols : Nat) (order : Nat) :
    Option String × Stage × World × Sym :=
  match order with
  | 0 =>
    let (w, u) := freshSym w rows cols
    (none, { s with controls := s.controls ++ [u] }, setTranscribed w false, u)
  | o + 1 =>
    let (s, w, u) := s.state w rows cols false
    match s.control w rows cols o with
    | (some e, s, w, h) => (some e, s, w, h)
    | (none, s, w, helper) =>
      match s.setDer w u (.sym helper) with
      | (some e, s, w) => (some e, s, w, u)
      | (none, s, w) => (none, s, w, u)

/-- Stage._create_placeholder_expr: mint an ownership-free proxy of the
shape of the expression, record the deferred expression and its
resolution-kind, and mark the master placeholder store dirty. -/
def createPlaceholderExpr (s : Stage) (w : World) (e : Expr) (name : String) :
    Stage × World × Sym :=
  let (w, r) := freshSym w e.shape.1 e.shape.2
  ({ s with
      placeholders := insertKV s.placeholders r e,
      placeholder_callbacks := insertKV s.placeholder_callbacks r name },
   markPhDirty w, r)

/-- Stage.at_t0. -/
def at_t0 (s : Stage) (w : World) (e : Expr) : Stage × World × Sym :=
  s.createPlaceholderExpr w e "at_t0"

/-- Stage.at_tf. -/
def at_tf (s : Stage) (w : World) (e : Expr) : Stage × World × Sym :=
  s.createPlaceholderExpr w e "at_tf"

/-- Stage.integral: on the inf grid, materialize an auxiliary quadrature
state with the expression as derivative and return its value at tf;
otherwise create an integral_control placeholder. -/
def integral (s : Stage) (w : World) (e : Expr) (grid : String) :
    Option String × Stage × World × Sym :=
  if grid = "inf" then
    let (s, w, I) := s.state w 1 1 true
    match s.setDer w I e with
    | (some err, s, w) => (some err, s, w, I)
    | (none, s, w) =>
      let (s, w, r) := s.at_tf w (.sym I)
      (none, s, w, r)
  else
    let (s, w, r) := s.createPlaceholderExpr w e "integral_control"
    (none, s, w, r)

/-- Stage.sum: the body ignores the grid argument and always records a
sum_control placeholder. -/
def sum (s : Stage) (w : World) (e : Expr) (grid : String) :
    Stage × World × Sym :=
  let _ := grid
  s.createPlaceholderExpr w e "sum_control"

/-- Stage.offset: a non-integer shift is rejected before anything is
recorded; an integer shift is recorded under a fresh proxy symbol of the
shape of the expression.  Integer-ness of the Python float test
int(offset) != offset is denominator-one on rationals. -/
def offset (s : Stage) (w : World) (e : Expr) (k : ℚ) :
    Option String × Stage × World × Option Sym :=
  if k.den ≠ 1 then
    (some "Integer expected", s, w, none)
  else
    let (w, ret) := freshSym w e.shape.1 e.shape.2
    (none, { s with offsets := insertKV s.offsets ret (e, k.num) }, w, some ret)

/-- Stage.next. -/
def next (s : Stage) (w : World) (e : Expr) :
    Option String × Stage × World × Option Sym :=
  s.offset w e 1

/-- Stage.prev. -/
def prev (s : Stage) (w : World) (e : Expr) :
    Option String × Stage × World × Option Sym :=
  s.offset w e (-1)

/-- Stage.inf_inert: record an expression held constant for inf-grid
constraints under a fresh proxy of its shape. -/
def infInert (s : Stage) (w : World) (e : Expr) : Stage × World × Sym :=
  let (w, ret) := freshSym w e.shape.1 e.shape.2
  ({ s with inf_inert := insertKV s.inf_inert ret e }, w, ret)

/-- Stage.inf_der: record a derivative-override expression under a fresh
proxy of its shape. -/
def infDer (s : Stage) (w : World) (e : Expr) : Stage × World × Sym :=
  let (w, ret) := freshSym w e.shape.1 e.shape.2
  ({ s with inf_der := insertKV s.inf_der ret e }, w, ret)

/-- Stage.set_initial: record the guess keyed by the expression (the
push into an already transcribed method is an external effect). -/
def setInitial (s : Stage) (var : Expr) (val : ℚ) : Stage :=
  { s with initial := insertKV s.initial var val }

/-- Stage.add_objective: accumulate by addition. -/
def addObjective (s : Stage) (w : World) (term : Expr) : Stage × World :=
  ({ s with objective := .add s.objective term }, setTranscribed w false)

/-- Stage.method: the method instance is deep-copied and inherited;
only its identity tag is modelled. -/
def method (s : Stage) (w : World) (m : Nat) : Stage × World :=
  ({ s with methodTag := m }, setTranscribed w false)

/-- Variables carrying a given grid tag, in insertion order. -/
def varsTagged (s : Stage) (tag : String) : List Sym :=
  (s.variables'.filter fun p => p.1 = tag).map Prod.snd

/-- The symbol set against which is_signal tests dependence: states,
controls, algebraics, the time symbol, control- and states-tagged
variables, and the derivative-override proxy symbols. -/
def signalSyms (s : Stage) : List Sym :=
  s.states ++ s.controls ++ s.algebraics ++ [s.tsym] ++
    s.varsTagged "control" ++ s.varsTagged "states" ++ s.inf_der.map Prod.fst

/-- Stage.is_signal. -/
def isSignal (s : Stage) (e : Expr) : Bool :=
  dependsOn e s.signalSyms

/-- The grid kinds accepted by subject_to. -/
def validGrids : List String :=
  ["point", "control", "inf", "integrator", "integrator_roots"]

/-- Append one entry to the list kept for a grid key, creating the key
at the end on first use (defaultdict of lists). -/
def appendConstraint (m : List (String × List (Expr × ConstraintArgs)))
    (k : String) (v : Expr × ConstraintArgs) :
    List (String × List (Expr × ConstraintArgs)) :=
  match m with
  | [] => [(k, [v])]
  | (k', l) :: rest =>
    if k' = k then (k', l ++ [v]) :: rest else (k', l) :: appendConstraint rest k v

/-- Stage.subject_to: the flag is cleared first; an unset grid is
inferred from is_signal; the grid kind, then the signal/point pairing,
are validated before the entry is appended under its grid key. -/
def subjectTo (s : Stage) (w : World) (constr : Expr) (grid : Option String)
    (include_first include_last : Bool) : Option String × Stage × World :=
  let w := setTranscribed w false
  let g := match grid with
    | none => if s.isSignal constr then "control" else "point"
    | some g => g
  if ¬ (validGrids.contains g) then
    (some "Invalid argument", s, w)
  else if s.isSignal constr ∧ g = "point" then
    (some "Got a signal expression for grid point.", s, w)
  else if ¬ s.isSignal constr ∧ g ≠ "point" then
    (some "Expected signal expression since grid was given.", s, w)
  else
    let args : ConstraintArgs := ⟨g, include_first, include_last⟩
    (none, { s with constraints := appendConstraint s.constraints g (constr, args) }, w)

/-- First statement of Stage._check_free_time: a FreeTime start-time is
replaced by a fresh decision variable with the stored hint as initial
guess. -/
def checkFreeTimeT0 (s : Stage) (w : World) : Stage × World :=
  match s.tt0 with
  | .freetime init =>
    let (s, w, v) := s.variable' w 1 1 ""
    let s := { s with tt0 := .ex (.sym v) }
    (s.setInitial (.sym v) init, w)
  | _ => (s, w)

/-- Second statement of Stage._check_free_time: a FreeTime horizon is
replaced by a fresh decision variable, constrained non-negative, with
the stored hint as initial guess. -/
def checkFreeTimeT (s : Stage) (w : World) : Option String × Stage × World :=
  match s.tT with
  | .freetime init =>
    let (s, w, v) := s.variable' w 1 1 ""
    let s := { s with tT := .ex (.sym v) }
    match s.subjectTo w (.ge (.sym v) (.const 0)) none true true with
    | (some e, s, w) => (some e, s, w)
    | (none, s, w) => (none, s.setInitial (.sym v) init, w)
  | _ => (none, s, w)

/-- Stage._check_free_time: the start-time pass then the horizon pass. -/
def checkFreeTime (s : Stage) (w : World) : Option String × Stage × World :=
  let (s, w) := checkFreeTimeT0 s w
  checkFreeTimeT s w

end Stage

/-- Stage.__init__: empty registries, a fresh time symbol, the public T
and t0 placeholders, tf as their sum, and, unless constructing a clone,
the free-time replacement pass. -/
def mkStage (w : World) (t0 T : TimeVal) (isClone : Bool) : Option String × Stage × World :=
  let (w, tsym) := freshSym w 1 1
  let s0 : Stage :=
    { states := [], qstates := [], controls := [], algebraics := []
      parameters := [], variables' := [], param_vals := []
      state_der := [], state_next := [], alg := []
      constraints := [], objective := .const 0, initial := []
      placeholders := [], placeholder_callbacks := []
      offsets := [], inf_inert := [], inf_der := []
      tsym := tsym, Tph := tsym, t0ph := tsym
      tT := T, tt0 := t0, tfExpr := .const 0
      methodTag := 0, substages := [] }
  let (s0, w, tph) := s0.createPlaceholderExpr w (.const 0) "T"
  let s0 := { s0 with Tph := tph }
  let (s0, w, t0ph) := s0.createPlaceholderExpr w (.const 0) "t0"
  let s0 := { s0 with t0ph := t0ph, tfExpr := .add (.sym tph) (.sym t0ph) }
  if isClone then (none, s0, w) else s0.checkFreeTime w

namespace Stage

/-- Stage.stage without a template: construct a child, append it to the
sub-stage list of the parent, and mark the tree untranscribed.  Returns
the updated parent together with the child. -/
def stageChild (s : Stage) (w : World) (t0 T : TimeVal) :
    Option String × Stage × Stage × World :=
  match mkStage w t0 T false with
  | (some e, child, w) => (some e, s, child, w)
  | (none, child, w) =>
    let s := { s with substages := s.substages ++ [child.tsym.id] }
    (none, s, child, setTranscribed w false)

end Stage

/-- The substitution-pair loop of Stage.clone: the T placeholder of the
original maps to the T placeholder of the clone, likewise t0, and every
other placeholder key maps to a freshly minted symbol of the same shape.
The fresh counter is threaded explicitly. -/
def cloneSubst (Tph t0ph retT rett0 : Sym) : List Sym → Nat → Nat × List (Sym × Sym)
  | [], n => (n, [])
  | k :: ks, n =>
    if k = Tph then
      let (n', rest) := cloneSubst Tph t0ph retT rett0 ks n
      (n', (k, retT) :: rest)
    else if k = t0ph then
      let (n', rest) := cloneSubst Tph t0ph retT rett0 ks n
      (n', (k, rett0) :: rest)
    else
      let (n', rest) := cloneSubst Tph t0ph retT rett0 ks (n + 1)
      (n', (k, ⟨n, k.rows, k.cols⟩) :: rest)

/-- The constraint-rebuild loop of Stage.clone: for each grid key in
turn, pair the next substituted expressions with the stored options and
drop them from the remaining list. -/
def rebuildConstraints : List (String × List (Expr × ConstraintArgs)) → List Expr →
    List (String × List (Expr × ConstraintArgs))
  | [], _ => []
  | (k, v) :: rest, r =>
    (k, r.zip (v.map Prod.snd)) :: rebuildConstraints rest (r.drop v.length)

/-- The placeholder-copy loop of Stage.clone: for each substitution pair
the callback and the deferred expression stored under the old key are
stored under the new key in the clone. -/
def copyPlaceholderEntries (self : Stage) (σ : List (Sym × Sym)) (ret : Stage) : Stage :=
  σ.foldl (fun r p =>
    { r with
        placeholder_callbacks := insertKV r.placeholder_callbacks p.2
          ((lookupKV self.placeholder_callbacks p.1).getD ""),
        placeholders := insertKV r.placeholders p.2
          ((lookupKV self.placeholders p.1).getD (.const 0)) }) ret

/-- The substitution map built by clone for a stage under the world it is
cloned in: the clone placeholders for T and t0 receive the identifiers
following the clone time symbol, and the remaining fresh symbols start
right after. -/
def cloneSigma (s : Stage) (w : World) : List (Sym × Sym) :=
  (cloneSubst s.Tph s.t0ph ⟨w.fresh + 1, 1, 1⟩ ⟨w.fresh + 1 + 1, 1, 1⟩
    (s.placeholders.map Prod.fst) (w.fresh + 1 + 1 + 1)).2

namespace Stage

/-- Stage.clone: construct a fresh Stage from the keyword overrides,
remap the placeholder keys (T and t0 to those of the clone, the rest to
fresh symbols), shallow-copy the symbol registries, rewrite constraints,
objective and initial-guess keys in one bulk substitution over their
union, re-run the free-time pass, and restore T, t0, the time symbol and
the method unless overridden. -/
def clone (self : Stage) (w : World) (kwT kwt0 : Option TimeVal) (isClone : Bool) :
    Option String × Stage × World :=
  match mkStage w (kwt0.getD (.num 0)) (kwT.getD (.num 1)) isClone with
  | (some e, ret, w) => (some e, ret, w)
  | (none, ret, w) =>
    let subst_from := self.placeholders.map Prod.fst
    let fσ := cloneSubst self.Tph self.t0ph ret.Tph ret.t0ph subst_from w.fresh
    let w := { w with fresh := fσ.1 }
    let σ := fσ.2
    let ret := copyPlaceholderEntries self σ ret
    let ret := { ret with
      states := self.states, controls := self.controls,
      algebraics := self.algebraics,
      parameters := self.parameters, variables' := self.variables',
      offsets := self.offsets, param_vals := self.param_vals,
      state_der := self.state_der, alg := self.alg,
      state_next := self.state_next }
    let origC := (self.constraints.map fun kv => kv.2.map Prod.fst).flatten
    let nC := origC.length
    let orig := origC ++ [self.objective] ++ self.initial.map Prod.fst
    let res := substituteL σ orig
    let ret := { ret with objective := (res.drop nC).headD (.const 0) }
    let ret := { ret with constraints := rebuildConstraints self.constraints (res.take nC) }
    let ret := { ret with initial := (res.drop (nC + 1)).zip (self.initial.map Prod.snd) }
    match ret.checkFreeTime w with
    | (some e, ret, w) => (some e, ret, w)
    | (none, ret, w) =>
      let ret := if kwT.isNone then { ret with tT := self.tT } else ret
      let ret := if kwt0.isNone then { ret with tt0 := self.tt0 } else ret
      let ret := { ret with tsym := self.tsym, methodTag := self.methodTag }
      (none, ret, w)

/-- Does the string start with a dash (grid.startswith of the source,
phrased on the character list so that it evaluates by reduction)? -/
def startsDash (s : String) : Bool :=
  match s.data with
  | [] => false
  | c :: _ => c = '-'

/-- Does the string end with a dash? -/
def endsDash (s : String) : Bool :=
  match s.data.getLast? with
  | some c => c = '-'
  | none => false

/-- Drop the first character (grid[1:]). -/
def dropFirstChar (s : String) : String := ⟨s.data.drop 1⟩

/-- Drop the last character (grid[:-1]). -/
def dropLastChar (s : String) : String := ⟨s.data.dropLast⟩

/-- Stage._parse_grid, verbatim: note that the leading-dash branch
assigns include_last, exactly as the source does, and that
include_first is initialized but never reassigned. -/
def parseGrid (grid : String) : String × Bool × Bool :=
  let include_last := true
  let include_first := true
  let gl :=
    if startsDash grid then (dropFirstChar grid, false) else (grid, include_last)
  let gl :=
    if endsDash gl.1 then (dropLastChar gl.1, false) else (gl.1, gl.2)
  (gl.1, include_first, gl.2)

end Stage

/-- Failure of a method point evaluator: an index-range failure
(IndexError, the only kind the control-grid sampler recovers) or any
other engine failure. -/
inductive EvalErr where
  | indexError
  | other (msg : String)
deriving DecidableEq, Repr

/-- The control-grid index list of Stage._grid_control: interior indices
1..N-1, with 0 prepended when include_first holds and -1 appended when
include_last holds. -/
def gridControlKs (N : Nat) (include_first include_last : Bool) : List Int :=
  let ks : List Int := (List.range (N - 1)).map fun i => (i : Int) + 1
  let ks := if include_first then 0 :: ks else ks
  if include_last then ks ++ [-1] else ks

/-- One iteration of the try/except in Stage._grid_control: an
IndexError from eval_at_control becomes a not-a-number fill of the
shape of the expression; any other failure propagates. -/
def recoverPoint (f : Int → Except EvalErr Expr) (shape : Nat × Nat) (k : Int) :
    Except EvalErr Expr :=
  match f k with
  | .ok r => .ok r
  | .error .indexError => .ok (.nan shape.1 shape.2)
  | .error e => .error e

/-- Left-to-right evaluation of the recovered points (the loop body of
Stage._grid_control). -/
def evalPoints (f : Int → Except EvalErr Expr) (shape : Nat × Nat) :
    List Int → Except EvalErr (List Expr)
  | [] => .ok []
  | k :: ks =>
    match recoverPoint f shape k with
    | .error e => .error e
    | .ok r =>
      match evalPoints f shape ks with
      | .error e => .error e
      | .ok rest => .ok (r :: rest)

/-- Stage._grid_control, value part: the method control-grid time vector
is external data returned unchanged and omitted here. -/
def gridControlVals (N : Nat) (f : Int → Except EvalErr Expr) (shape : Nat × Nat)
    (include_first include_last : Bool) : Except EvalErr (List Expr) :=
  evalPoints f shape (gridControlKs N include_first include_last)

/-- The nested loop index set of Stage._grid_integrator. -/
def intgIndices (N M : Nat) : List (Nat × Nat) :=
  ((List.range N).map fun k => (List.range M).map fun l => (k, l)).flatten

/-- Left-to-right evaluation of the integrator points: no try/except in
the source, so the first failure propagates. -/
def evalIntgPoints (fi : Nat → Nat → Except EvalErr Expr) :
    List (Nat × Nat) → Except EvalErr (List Expr)
  | [] => .ok []
  | kl :: rest =>
    match fi kl.1 kl.2 with
    | .error e => .error e
    | .ok r =>
      match evalIntgPoints fi rest with
      | .error e => .error e
      | .ok l => .ok (r :: l)

/-- Stage._grid_integrator, value part: include_first is asserted, each
sub-step is evaluated with eval_at_integrator unguarded, and when
include_last holds the final point comes from eval_at_control at -1,
also unguarded. -/
def gridIntegratorVals (N M : Nat) (fi : Nat → Nat → Except EvalErr Expr)
    (fc : Int → Except EvalErr Expr) (include_first include_last : Bool) :
    Except EvalErr (List Expr) :=
  if ¬ include_first then .error (.other "assert include_first")
  else
    match evalIntgPoints fi (intgIndices N M) with
    | .error e => .error e
    | .ok base =>
      if include_last then
        match fc (-1) with
        | .error e => .error e
        | .ok last => .ok (base ++ [last])
      else .ok base

/-- The control-grid dispatch of Stage.sample: parse the grid string,
then evaluate on the control grid.  The dead branch for the literal
string with a trailing dash passes include_last twice in the source and
would fail with a TypeError. -/
def sampleControl (grid : String) (N : Nat) (f : Int → Except EvalErr Expr)
    (shape : Nat × Nat) : Except EvalErr (List Expr) :=
  let p := Stage.parseGrid grid
  if p.1 = "control" then gridControlVals N f shape p.2.1 p.2.2
  else if p.1 = "control-" then .error (.other "TypeError")
  else .error (.other "Unknown grid option")

/-- Constraint list stored under one grid key. -/
def constraintsAt (s : Stage) (g : String) : List (Expr × ConstraintArgs) :=
  (lookupKV s.constraints g).getD []

/-- The signal predicate exactly as the examined claim words it:
dependence on a state, control, algebraic, time, or a control- or
states-tagged variable.  Written from the claim, to be compared with
the is_signal of the source, which also consults the
derivative-override proxies. -/
def claimSignalSpec (s : Stage) (e : Expr) : Bool :=
  dependsOn e (s.states ++ s.controls ++ s.algebraics ++ [s.tsym] ++
    s.varsTagged "control" ++ s.varsTagged "states")

/-
Concrete fixtures: a stage under a master, built through the public
operations, used to evaluate the embedded code at explicit inputs.
-/

/-- A world with a master whose transcribed flag is set. -/
def exW : World := ⟨0, some true, false⟩

/-- A freshly constructed stage with concrete times. -/
def exStage0 : Stage := (mkStage exW (.num 0) (.num 1) false).2.1

/-- World after constructing exStage0. -/
def exW0 : World := (mkStage exW (.num 0) (.num 1) false).2.2

/-- exStage0 with one declared state. -/
def exStage1 : Stage := (exStage0.state exW0 1 1 false).1

/-- World after declaring the state. -/
def exW1 : World := (exStage0.state exW0 1 1 false).2.1

/-- The declared state symbol. -/
def exX : Sym := (exStage0.state exW0 1 1 false).2.2

/-- exStage1 with the derivative of the state set. -/
def exStageDer : Stage := (exStage1.setDer exW1 exX (.neg (.sym exX))).2.1

/-- World after setting the derivative. -/
def exWDer : World := (exStage1.setDer exW1 exX (.neg (.sym exX))).2.2

/-- exStage1 with a next-state rule set instead. -/
def exStageNext : Stage := (exStage1.setNext exW1 exX (.neg (.sym exX))).2.1

/-- World after setting the next-state rule. -/
def exWNext : World := (exStage1.setNext exW1 exX (.neg (.sym exX))).2.2

/-- exStage0 with a derivative-override proxy recorded. -/
def exStageD : Stage := (exStage0.infDer exW0 (.const 7)).1

/-- World after recording the override. -/
def exWD : World := (exStage0.infDer exW0 (.const 7)).2.1

/-- The derivative-override proxy symbol. -/
def exD : Sym := (exStage0.infDer exW0 (.const 7)).2.2

/-- A constraint expression that mentions only the override proxy. -/
def exConstrD : Expr := .le (.sym exD) (.const 0)

/-- A point evaluator that fails with an index-range error at index 0
and succeeds elsewhere. -/
def exF : Int → Except EvalErr Expr :=
  fun k => if k = 0 then .error .indexError else .ok (.const 1)

/-- C1: evaluated on a concrete stage, integral with grid inf does
create an auxiliary quadrature state carrying the expression as its
derivative and returns an at_tf placeholder on that state, and integral
with grid control records an integral_control placeholder; but sum with
grid inf does not take the quadrature path the claim describes: its body
ignores the grid argument and records a sum_control placeholder, leaving
the quadrature states and the derivative map untouched. -/
theorem C1_sum_inf_takes_sum_control_path :
    (let r := exStage1.integral exW1 (.sym exX) "inf"
     r.1 = none ∧
     r.2.1.qstates = [⟨4, 1, 1⟩] ∧
     lookupKV r.2.1.state_der ⟨4, 1, 1⟩ = some (.sym exX) ∧
     lookupKV r.2.1.placeholder_callbacks r.2.2.2 = some "at_tf" ∧
     lookupKV r.2.1.placeholders r.2.2.2 = some (.sym ⟨4, 1, 1⟩)) ∧
    (let r := exStage1.integral exW1 (.sym exX) "control"
     lookupKV r.2.1.placeholder_callbacks r.2.2.2 = some "integral_control") ∧
    (let r := exStage1.sum exW1 (.sym exX) "inf"
     r.1.qstates = [] ∧ r.1.state_der = [] ∧
     lookupKV r.1.placeholder_callbacks r.2.2 = some "sum_control") := by
  decide

/-- C2: parse_grid clears include_last in the leading-dash branch and
never clears include_first, so for a stage with N = 3 control intervals
the grid string with both dashes still yields N = 3 evaluation points
(boundary 0 included, boundary N dropped), not the N - 1 = 2 points the
claim states; the undashed and single-dash counts are also evaluated. -/
theorem C2_leading_dash_clears_include_last :
    Stage.parseGrid "control" = ("control", true, true) ∧
    Stage.parseGrid "-control" = ("control", true, false) ∧
    Stage.parseGrid "control-" = ("control", true, false) ∧
    Stage.parseGrid "-control-" = ("control", true, false) ∧
    (gridControlKs 3 true true).length = 3 + 1 ∧
    sampleControl "control" 3 (fun _ => .ok (.const 0)) (1, 1) =
      .ok [.const 0, .const 0, .const 0, .const 0] ∧
    sampleControl "-control-" 3 (fun _ => .ok (.const 0)) (1, 1) =
      .ok [.const 0, .const 0, .const 0] := by
  exact ⟨by decide, by decide, by decide, by decide, by decide, rfl, rfl⟩

/-- C5: on a concrete stage, setting a derivative and then a next-state
rule on the same state does fail, but the failing call returns with the
next-state entry already inserted, so both mappings are non-empty
afterwards, refuting the invariant that they are never both non-empty. -/
theorem C5_failed_setnext_leaves_both_maps_nonempty :
    (exStage1.setDer exW1 exX (.neg (.sym exX))).1 = none ∧
    (let r := exStageDer.setNext exWDer exX (.neg (.sym exX))
     r.1.isSome = true ∧
     r.2.1.state_der ≠ [] ∧
     r.2.1.state_next ≠ []) := by
  decide

/-- C3 counterexample: cloning a concrete stage with one declared state
yields a clone whose state list is the very same symbol list as the
original, so not every symbol is replaced by a freshly minted one. -/
theorem C3_counterexample_states_shared :
    (exStage1.clone exW1 none none true).1 = none ∧
    (exStage1.clone exW1 none none true).2.1.states = exStage1.states ∧
    exStage1.states = [exX] ∧
    exX.id < exW1.fresh := by
  decide

/-- C6 counterexample: a constraint mentioning only a derivative-override
proxy is not a signal under the dependency set the claim enumerates, yet
subject_to with grid unset infers grid control for it, not point. -/
theorem C6_counterexample_inf_der_counts_as_signal :
    claimSignalSpec exStageD exConstrD = false ∧
    (exStageD.subjectTo exWD exConstrD none true true).1 = none ∧
    lookupKV (exStageD.subjectTo exWD exConstrD none true true).2.1.constraints "control" =
      some [(exConstrD, ⟨"control", true, true⟩)] := by
  decide

/-- C7 counterexample: an index-range failure raised by
eval_at_integrator during integrator-grid sampling propagates to the
caller instead of being converted to a not-a-number fill. -/
theorem C7_counterexample_integrator_grid_propagates :
    gridIntegratorVals 1 1 (fun _ _ => .error .indexError) (fun _ => .ok (.const 0))
      true true = .error .indexError := by
  rfl

theorem insertKV_ne_nil {κ α : Type} [DecidableEq κ] (m : List (κ × α)) (k : κ) (v : α) :
    insertKV m k v ≠ [] := by
  cases m with
  | nil => simp [insertKV]
  | cons p rest => simp only [insertKV]; split <;> simp

/-- C9: a non-integer shift is rejected with the stage and world
untouched, so nothing is recorded; an integer shift mints a proxy of the
shape of the expression under which the pair of expression and shift is
recorded; and next and prev are exactly offset by one and minus one. -/
theorem C9_offset_records_integer_shift (s : Stage) (w : World) (e : Expr) (k : ℚ) :
    (k.den ≠ 1 → s.offset w e k = (some "Integer expected", s, w, none)) ∧
    (k.den = 1 →
      s.offset w e k =
        (none,
         { s with offsets := insertKV s.offsets ⟨w.fresh, e.shape.1, e.shape.2⟩ (e, k.num) },
         { w with fresh := w.fresh + 1 },
         some ⟨w.fresh, e.shape.1, e.shape.2⟩)) ∧
    s.next w e = s.offset w e 1 ∧
    s.prev w e = s.offset w e (-1) := by
  refine ⟨fun h => ?_, fun h => ?_, rfl, rfl⟩ <;> simp [Stage.offset, h, freshSym]

/-- Witness for C9 at the shift three halves and at the shift two. -/
theorem C9_offset_witness :
    ((3 : ℚ) / 2).den ≠ 1 ∧
    exStage1.offset exW1 (.sym exX) ((3 : ℚ) / 2) =
      (some "Integer expected", exStage1, exW1, none) ∧
    ((2 : ℚ)).den = 1 ∧
    exStage1.offset exW1 (.sym exX) 2 =
      (none,
       { exStage1 with
          offsets := insertKV exStage1.offsets ⟨exW1.fresh, 1, 1⟩ (Expr.sym exX, 2) },
       { exW1 with fresh := exW1.fresh + 1 },
       some ⟨exW1.fresh, 1, 1⟩) := by
  refine ⟨by norm_num,
    (C9_offset_records_integer_shift exStage1 exW1 (.sym exX) ((3 : ℚ) / 2)).1 (by norm_num),
    by norm_num, ?_⟩
  exact (C9_offset_records_integer_shift exStage1 exW1 (.sym exX) 2).2.1 (by norm_num)

/-- C10: on a stage with a non-empty derivative map, set_next fails but
only after inserting the next-state entry, leaving the stage with both
mappings non-empty; set_der in the reverse situation checks before
inserting and returns the stage unchanged. -/
theorem C10_setnext_inserts_before_check (s : Stage) (w : World) (x : Sym) (e f : Expr) :
    (s.state_der ≠ [] →
      s.setNext w x f =
        (some "assert not self state_der",
         { s with state_next := insertKV s.state_next x f }, setTranscribed w false) ∧
      insertKV s.state_next x f ≠ [] ∧
      ({ s with state_next := insertKV s.state_next x f } : Stage).state_der = s.state_der) ∧
    (s.state_next ≠ [] →
      s.setDer w x e = (some "assert not self state_next", s, setTranscribed w false)) := by
  constructor
  · intro h
    refine ⟨?_, insertKV_ne_nil _ _ _, rfl⟩
    cases hd : s.state_der with
    | nil => exact absurd hd h
    | cons a t => simp [Stage.setNext, hd]
  · intro h
    cases hn : s.state_next with
    | nil => exact absurd hn h
    | cons a t => simp [Stage.setDer, hn]

/-- Witness for C10 on concrete stages with one state. -/
theorem C10_witness :
    exStageDer.state_der ≠ [] ∧
    (exStageDer.setNext exWDer exX (.neg (.sym exX))).2.1.state_der ≠ [] ∧
    (exStageDer.setNext exWDer exX (.neg (.sym exX))).2.1.state_next ≠ [] ∧
    exStageNext.state_next ≠ [] ∧
    (exStageNext.setDer exWNext exX (.neg (.sym exX))).2.1 = exStageNext := by
  have h1 := (C10_setnext_inserts_before_check exStageDer exWDer exX
    (.neg (.sym exX)) (.neg (.sym exX))).1 (by decide)
  have h2 := (C10_setnext_inserts_before_check exStageNext exWNext exX
    (.neg (.sym exX)) (.neg (.sym exX))).2 (by decide)
  refine ⟨by decide, ?_, ?_, by decide, ?_⟩
  · rw [h1.1]; decide
  · rw [h1.1]; decide
  · rw [h2]

/-- C7, amended: the control-grid sampler recovers every index-range
failure of the point evaluator into a not-a-number fill of the shape of
the expression, returning successfully whenever the evaluator only ever
fails with index-range errors (whereas the integrator-grid sampler
propagates, see the counterexample). -/
theorem C7_control_grid_recovers_index_errors (N : Nat)
    (f : Int → Except EvalErr Expr) (shape : Nat × Nat) (ff ll : Bool)
    (h : ∀ k msg, f k ≠ .error (.other msg)) :
    gridControlVals N f shape ff ll =
      .ok ((gridControlKs N ff ll).map fun k =>
        match f k with
        | .ok r => r
        | _ => .nan shape.1 shape.2) := by
  unfold gridControlVals
  generalize gridControlKs N ff ll = l
  induction l with
  | nil => rfl
  | cons k ks ih =>
    simp only [evalPoints, List.map_cons]
    cases hf : f k with
    | ok r => simp [recoverPoint, hf, ih]
    | error err =>
      cases err with
      | indexError => simp [recoverPoint, hf, ih]
      | other m => exact absurd hf (h k m)

/-- Witness for C7 with an evaluator failing with an index error at
index zero on a two-interval grid. -/
theorem C7_witness :
    (∀ k msg, exF k ≠ .error (.other msg)) ∧
    gridControlVals 2 exF (1, 1) true true =
      .ok [.nan 1 1, .const 1, .const 1] := by
  have hf : ∀ k msg, exF k ≠ Except.error (.other msg) := by
    intro k m
    unfold exF
    split <;> simp
  refine ⟨hf, ?_⟩
  rw [C7_control_grid_recovers_index_errors 2 exF (1, 1) true true hf]
  rfl

theorem markPhDirty_transcribed (w : World) :
    (markPhDirty w).transcribed = w.transcribed := by
  unfold markPhDirty; split <;> rfl

theorem setTranscribed_some (w : World) (b v : Bool) (h : w.transcribed = some b) :
    (setTranscribed w v).transcribed = some v := by
  simp [setTranscribed, h]

theorem setDer_world (s : Stage) (w : World) (x : Sym) (d : Expr) :
    (s.setDer w x d).2.2 = setTranscribed w false := by
  unfold Stage.setDer; split <;> rfl

theorem setNext_world (s : Stage) (w : World) (x : Sym) (n : Expr) :
    (s.setNext w x n).2.2 = setTranscribed w false := by
  unfold Stage.setNext
  dsimp only
  split <;> rfl

theorem subjectTo_world (s : Stage) (w : World) (c : Expr) (g : Option String)
    (ff ll : Bool) :
    (s.subjectTo w c g ff ll).2.2 = setTranscribed w false := by
  unfold Stage.subjectTo
  dsimp only
  repeat' split
  all_goals rfl

theorem subjectTo_none_ok (s : Stage) (w : World) (c : Expr) (ff ll : Bool) :
    (s.subjectTo w c none ff ll).1 = none := by
  unfold Stage.subjectTo
  by_cases hs : s.isSignal c = true
  · simp +decide [hs]
  · simp only [Bool.not_eq_true] at hs
    simp +decide [hs]

theorem control_world (o : Nat) : ∀ (s : Stage) (w : World) (rows cols : Nat)
    (b : Bool), w.transcribed = some b →
    ((s.control w rows cols o).2.2.1).transcribed = some false := by
  induction o with
  | zero =>
    intro s w rows cols b h
    unfold Stage.control
    dsimp only [freshSym]
    exact setTranscribed_some _ b false h
  | succ o ih =>
    intro s w rows cols b h
    unfold Stage.control
    rcases hc : Stage.control (s.state w rows cols false).1
        (s.state w rows cols false).2.1 rows cols o with ⟨err, s2, w2, u2⟩
    have h2 : w2.transcribed = some false := by
      have hstate : ((s.state w rows cols false).2.1).transcribed = some false := by
        unfold Stage.state
        dsimp only [freshSym]
        exact setTranscribed_some _ b false h
      have hi := ih (s.state w rows cols false).1 (s.state w rows cols false).2.1
        rows cols false hstate
      rw [hc] at hi
      exact hi
    simp only [hc]
    cases err with
    | some e => exact h2
    | none =>
      rcases hd : s2.setDer w2 (s.state w rows cols false).2.2 (Expr.sym u2)
        with ⟨err2, s3, w3⟩
      have h3 : w3 = setTranscribed w2 false := by
        have hw := setDer_world s2 w2 (s.state w rows cols false).2.2 (Expr.sym u2)
        rw [hd] at hw
        exact hw
      simp only [hd]
      cases err2 <;> (dsimp only; rw [h3]; exact setTranscribed_some _ false false h2)

theorem checkFreeTimeT_err_none (s : Stage) (w : World) :
    (Stage.checkFreeTimeT s w).1 = none := by
  unfold Stage.checkFreeTimeT
  split
  · dsimp only [Stage.variable', freshSym]
    split
    · rename_i e s2 w2 heq
      have h2 : (Stage.subjectTo _ _ _ none true true).1 = some e :=
        congrArg Prod.fst heq
      rw [subjectTo_none_ok] at h2
      exact absurd h2 (by simp)
    · rfl
  · rfl

theorem checkFreeTime_err_none (s : Stage) (w : World) :
    (s.checkFreeTime w).1 = none := by
  unfold Stage.checkFreeTime
  rcases hc : Stage.checkFreeTimeT0 s w with ⟨s1, w1⟩
  simp only [hc]
  exact checkFreeTimeT_err_none s1 w1

theorem checkFreeTimeT0_world (s : Stage) (w : World) (b : Bool)
    (h : w.transcribed = some b) :
    ∃ b', ((Stage.checkFreeTimeT0 s w).2).transcribed = some b' := by
  unfold Stage.checkFreeTimeT0
  split
  · dsimp only [Stage.variable', freshSym]
    exact ⟨false, setTranscribed_some _ b false h⟩
  · exact ⟨b, h⟩

theorem checkFreeTimeT_world (s : Stage) (w : World) (b : Bool)
    (h : w.transcribed = some b) :
    ∃ b', ((Stage.checkFreeTimeT s w).2.2).transcribed = some b' := by
  unfold Stage.checkFreeTimeT
  split
  · dsimp only [Stage.variable', freshSym]
    split
    · rename_i e s2 w2 heq
      have h2 : (Stage.subjectTo _ _ _ none true true).2.2 = w2 :=
        congrArg (fun p => p.2.2) heq
      rw [subjectTo_world] at h2
      refine ⟨false, ?_⟩
      dsimp only
      rw [← h2]
      exact setTranscribed_some _ false false (setTranscribed_some _ b false h)
    · rename_i s2 w2 heq
      have h2 : (Stage.subjectTo _ _ _ none true true).2.2 = w2 :=
        congrArg (fun p => p.2.2) heq
      rw [subjectTo_world] at h2
      refine ⟨false, ?_⟩
      dsimp only
      rw [← h2]
      exact setTranscribed_some _ false false (setTranscribed_some _ b false h)
  · exact ⟨b, h⟩

theorem checkFreeTime_world (s : Stage) (w : World) (b : Bool)
    (h : w.transcribed = some b) :
    ∃ b', ((s.checkFreeTime w).2.2).transcribed = some b' := by
  unfold Stage.checkFreeTime
  rcases hc : Stage.checkFreeTimeT0 s w with ⟨s1, w1⟩
  have h1 : ∃ b', w1.transcribed = some b' := by
    have := checkFreeTimeT0_world s w b h
    rw [hc] at this
    exact this
  obtain ⟨b1, h1⟩ := h1
  simp only [hc]
  exact checkFreeTimeT_world s1 w1 b1 h1

theorem mkStage_err_none (w : World) (t0 T : TimeVal) :
    (mkStage w t0 T false).1 = none := by
  unfold mkStage
  dsimp only [Stage.createPlaceholderExpr, freshSym]
  simp only [Bool.false_eq_true, if_false]
  exact checkFreeTime_err_none _ _

theorem mkStage_world (w : World) (t0 T : TimeVal) (b : Bool)
    (h : w.transcribed = some b) :
    ∃ b', ((mkStage w t0 T false).2.2).transcribed = some b' := by
  unfold mkStage
  dsimp only [Stage.createPlaceholderExpr, freshSym]
  simp only [Bool.false_eq_true, if_false]
  apply checkFreeTime_world _ _ b
  rw [markPhDirty_transcribed, markPhDirty_transcribed]
  exact h

/-- C4: on a stage tree that has a master, every mutating call, namely
declaring a state, control, algebraic, parameter or variable, setting a
derivative or next-state rule, adding a constraint or objective term,
assigning a method, or creating a child stage, leaves the master
transcribed flag false, whatever its previous value. -/
theorem C4_mutating_calls_clear_transcribed (s : Stage) (w : World) (b : Bool)
    (rows cols : Nat) (quad : Bool) (tag : String) (o : Nat) (x : Sym)
    (d n c term : Expr) (g : Option String) (ff ll : Bool) (m : Nat)
    (t0 T : TimeVal) (h : w.transcribed = some b) :
    ((s.state w rows cols quad).2.1).transcribed = some false ∧
    ((s.algebraic w rows cols).2.1).transcribed = some false ∧
    ((s.variable' w rows cols tag).2.1).transcribed = some false ∧
    ((s.parameter w rows cols tag).2.1).transcribed = some false ∧
    ((s.control w rows cols o).2.2.1).transcribed = some false ∧
    ((s.setDer w x d).2.2).transcribed = some false ∧
    ((s.setNext w x n).2.2).transcribed = some false ∧
    ((s.subjectTo w c g ff ll).2.2).transcribed = some false ∧
    ((s.addObjective w term).2).transcribed = some false ∧
    ((s.method w m).2).transcribed = some false ∧
    ((s.stageChild w t0 T).2.2.2).transcribed = some false := by
  have hset : ∀ w' : World, w'.transcribed = some b →
      (setTranscribed w' false).transcribed = some false :=
    fun w' h' => setTranscribed_some w' b false h'
  refine ⟨hset _ h, hset _ h, hset _ h, hset _ h, control_world o s w rows cols b h,
    ?_, ?_, ?_, hset _ h, hset _ h, ?_⟩
  · rw [setDer_world]; exact hset _ h
  · rw [setNext_world]; exact hset _ h
  · rw [subjectTo_world]; exact hset _ h
  · unfold Stage.stageChild
    rcases hm : mkStage w t0 T false with ⟨err, child, w1⟩
    have herr : err = none := by
      have := mkStage_err_none w t0 T
      rw [hm] at this
      exact this
    subst herr
    have hw1 : ∃ b', w1.transcribed = some b' := by
      have := mkStage_world w t0 T b h
      rw [hm] at this
      exact this
    obtain ⟨b1, hb1⟩ := hw1
    exact setTranscribed_some w1 b1 false hb1

/-- Witness for C4: declaring a state and creating a child on a concrete
stage both leave the master flag false. -/
theorem C4_witness :
    ((exStage1.state exW1 1 1 false).2.1).transcribed = some false ∧
    ((exStage1.stageChild exW1 (.num 0) (.num 1)).2.2.2).transcribed = some false := by
  have h := C4_mutating_calls_clear_transcribed exStage1 exW1 false 1 1 false "" 0 exX
    (.const 0) (.const 0) (.const 0) (.const 0) none true true 0 (.num 0) (.num 1)
    (by decide)
  exact ⟨h.1, h.2.2.2.2.2.2.2.2.2.2⟩

theorem markPhDirty_fresh (w : World) : (markPhDirty w).fresh = w.fresh := by
  unfold markPhDirty; split <;> rfl

theorem setTranscribed_fresh (w : World) (v : Bool) :
    (setTranscribed w v).fresh = w.fresh := rfl

/-- C8: constructing a stage whose horizon is a free-time sentinel
replaces it, during construction, by a fresh decision variable (minted
right after the time symbol and the two public placeholders), adds the
non-negativity constraint on that variable under the point grid,
and records an initial guess equal to the stored hint; a free start-time
is likewise replaced with its guess recorded but with no constraint
added. -/
theorem C8_free_time_replaced_at_construction (n : Nat) (tr : Option Bool)
    (ph : Bool) (hT h0 : ℚ) :
    (let r := mkStage ⟨n, tr, ph⟩ (.num 0) (.freetime hT) false
     r.1 = none ∧
     r.2.1.tT = .ex (.sym ⟨n + 3, 1, 1⟩) ∧
     r.2.1.variables' = [("", ⟨n + 3, 1, 1⟩)] ∧
     lookupKV r.2.1.constraints "point" =
       some [(.ge (.sym ⟨n + 3, 1, 1⟩) (.const 0), ⟨"point", true, true⟩)] ∧
     r.2.1.initial = [(.sym ⟨n + 3, 1, 1⟩, hT)]) ∧
    (let r := mkStage ⟨n, tr, ph⟩ (.freetime h0) (.num 1) false
     r.1 = none ∧
     r.2.1.tt0 = .ex (.sym ⟨n + 3, 1, 1⟩) ∧
     r.2.1.variables' = [("", ⟨n + 3, 1, 1⟩)] ∧
     r.2.1.initial = [(.sym ⟨n + 3, 1, 1⟩, h0)] ∧
     r.2.1.constraints = []) := by
  refine ⟨⟨mkStage_err_none _ _ _, ?_, ?_, ?_, ?_⟩,
          ⟨mkStage_err_none _ _ _, ?_, ?_, ?_, ?_⟩⟩ <;>
    simp [mkStage, Stage.createPlaceholderExpr, freshSym, Expr.shape,
      Stage.checkFreeTime, Stage.checkFreeTimeT0, Stage.checkFreeTimeT,
      Stage.variable', Stage.setInitial, Stage.subjectTo, Stage.isSignal,
      dependsOn, Expr.syms, memSym, Stage.signalSyms, Stage.varsTagged,
      insertKV, Stage.validGrids, Stage.appendConstraint, lookupKV,
      markPhDirty_fresh, setTranscribed_fresh,
      show n + 1 + 1 + 1 ≠ n from by omega]

theorem memSym_iff (v : Sym) (l : List Sym) : memSym v l = true ↔ v ∈ l := by
  induction l with
  | nil => simp [memSym]
  | cons u rest ih =>
    simp only [memSym]
    by_cases h : v = u <;> simp [h, ih]

theorem dependsOn_iff (e : Expr) (ss : List Sym) :
    dependsOn e ss = true ↔ ∃ v ∈ e.syms, v ∈ ss := by
  simp [dependsOn, List.any_eq_true, memSym_iff]

/-- C6, amended: the signal test used for grid inference consults
states, controls, algebraics, the time symbol, control- and
states-tagged variables, and additionally the derivative-override
proxy symbols; with grid unset a signal infers control and a non-signal
infers point; an unknown grid kind, a signal with grid point, and a
non-signal with any other grid are each rejected immediately with the
stage unchanged. -/
theorem C6_subject_to_grid_classification (s : Stage) (w : World) (c : Expr)
    (ff ll : Bool) (g : String) :
    (s.isSignal c = true ↔ ∃ v ∈ c.syms,
      v ∈ s.states ∨ v ∈ s.controls ∨ v ∈ s.algebraics ∨ v = s.tsym ∨
      v ∈ s.varsTagged "control" ∨ v ∈ s.varsTagged "states" ∨
      v ∈ s.inf_der.map Prod.fst) ∧
    (s.isSignal c = true →
      s.subjectTo w c none ff ll =
        (none,
         { s with constraints :=
                    Stage.appendConstraint s.constraints "control" (c, ⟨"control", ff, ll⟩) },
         setTranscribed w false)) ∧
    (s.isSignal c = false →
      s.subjectTo w c none ff ll =
        (none,
         { s with constraints :=
                    Stage.appendConstraint s.constraints "point" (c, ⟨"point", ff, ll⟩) },
         setTranscribed w false)) ∧
    (g ∉ Stage.validGrids →
      s.subjectTo w c (some g) ff ll =
        (some "Invalid argument", s, setTranscribed w false)) ∧
    (s.isSignal c = true →
      s.subjectTo w c (some "point") ff ll =
        (some "Got a signal expression for grid point.", s, setTranscribed w false)) ∧
    (s.isSignal c = false → g ∈ Stage.validGrids → g ≠ "point" →
      s.subjectTo w c (some g) ff ll =
        (some "Expected signal expression since grid was given.", s,
         setTranscribed w false)) := by
  refine ⟨?_, ?_, ?_, ?_, ?_, ?_⟩
  · simp only [Stage.isSignal, dependsOn_iff, Stage.signalSyms, List.mem_append,
      List.mem_singleton]
    constructor
    · rintro ⟨v, hv, hin⟩
      exact ⟨v, hv, by tauto⟩
    · rintro ⟨v, hv, hin⟩
      exact ⟨v, hv, by tauto⟩
  · intro hs
    simp +decide [Stage.subjectTo, hs]
  · intro hs
    simp +decide [Stage.subjectTo, hs]
  · intro hg
    simp [Stage.subjectTo, hg]
  · intro hs
    simp +decide [Stage.subjectTo, hs]
  · intro hs hg hp
    simp [Stage.subjectTo, hs, hg, hp]

/-- Witness for C6 on a concrete stage: a state-dependent constraint is a
signal, infers grid control, and is rejected with an explicit grid
point; an unknown grid kind is rejected. -/
theorem C6_witness :
    exStage1.isSignal (.le (.sym exX) (.const 3)) = true ∧
    (exStage1.subjectTo exW1 (.le (.sym exX) (.const 3)) none true true).1 = none ∧
    lookupKV ((exStage1.subjectTo exW1 (.le (.sym exX) (.const 3))
        none true true).2.1.constraints) "control" =
      some [(Expr.le (.sym exX) (.const 3), ⟨"control", true, true⟩)] ∧
    exStage1.subjectTo exW1 (.le (.sym exX) (.const 3)) (some "point") true true =
      (some "Got a signal expression for grid point.", exStage1,
       setTranscribed exW1 false) ∧
    exStage1.subjectTo exW1 (.const 5) (some "bogus") true true =
      (some "Invalid argument", exStage1, setTranscribed exW1 false) := by
  have h := C6_subject_to_grid_classification exStage1 exW1
    (.le (.sym exX) (.const 3)) true true "bogus"
  have h2 := C6_subject_to_grid_classification exStage1 exW1 (.const 5) true true "bogus"
  refine ⟨by decide, ?_, ?_, h.2.2.2.2.1 (by decide), h2.2.2.2.1 (by decide)⟩
  · rw [h.2.1 (by decide)]
  · rw [h.2.1 (by decide)]
    decide

theorem zip_subst {β : Type} (f : Expr → Expr) :
    ∀ (v : List (Expr × β)) (R : List Expr),
    (((v.map Prod.fst).map f) ++ R).zip (v.map Prod.snd) =
      v.map fun p => (f p.1, p.2) := by
  intro v
  induction v with
  | nil => intro R; simp
  | cons p rest ih =>
    intro R
    simp only [List.map_cons, List.cons_append, List.zip_cons_cons]
    rw [ih]

theorem drop_maplen {β : Type} (f : Expr → Expr) :
    ∀ (v : List (Expr × β)) (R : List Expr),
    (((v.map Prod.fst).map f) ++ R).drop v.length = R := by
  intro v
  induction v with
  | nil => intro R; simp
  | cons p rest ih => intro R; simp [ih]

theorem substituteL_parts (σ : List (Sym × Sym)) :
    ∀ (A : List Expr) (x : Expr) (B : List Expr),
    (substituteL σ (A ++ [x] ++ B)).take A.length = substituteL σ A ∧
    ((substituteL σ (A ++ [x] ++ B)).drop A.length).headD (.const 0) = substExpr σ x ∧
    (substituteL σ (A ++ [x] ++ B)).drop (A.length + 1) = substituteL σ B := by
  intro A
  induction A with
  | nil => intro x B; simp [substituteL]
  | cons a A ih =>
    intro x B
    refine ⟨?_, ?_, ?_⟩ <;> simp only [substituteL, List.map_cons, List.cons_append,
      List.length_cons, List.take_succ_cons, List.drop_succ_cons]
    · have h := (ih x B).1
      simp only [substituteL] at h
      rw [h]
    · have h := (ih x B).2.1
      simp only [substituteL] at h
      exact h
    · have h := (ih x B).2.2
      simp only [substituteL] at h
      exact h

theorem rebuildConstraints_spec (σ : List (Sym × Sym)) :
    ∀ groups : List (String × List (Expr × ConstraintArgs)),
    rebuildConstraints groups
        (substituteL σ ((groups.map fun kv => kv.2.map Prod.fst).flatten)) =
      groups.map fun kv => (kv.1, kv.2.map fun p => (substExpr σ p.1, p.2)) := by
  intro groups
  induction groups with
  | nil => rfl
  | cons kv rest ih =>
    rcases kv with ⟨k, v⟩
    simp only [List.map_cons, List.flatten_cons, substituteL, List.map_append,
      rebuildConstraints]
    rw [zip_subst (substExpr σ) v _, drop_maplen (substExpr σ) v _]
    simp only [substituteL] at ih
    rw [ih]

theorem cloneSubst_keys (Tph t0ph rT r0 : Sym) :
    ∀ (ks : List Sym) (n : Nat),
    (cloneSubst Tph t0ph rT r0 ks n).2.map Prod.fst = ks := by
  intro ks
  induction ks with
  | nil => intro n; rfl
  | cons k rest ih =>
    intro n
    unfold cloneSubst
    by_cases h1 : k = Tph
    · rcases hrec : cloneSubst Tph t0ph rT r0 rest n with ⟨n', σ'⟩
      have ihn := ih n
      rw [hrec] at ihn
      rw [if_pos h1]
      simpa using ihn
    · by_cases h2 : k = t0ph
      · rcases hrec : cloneSubst Tph t0ph rT r0 rest n with ⟨n', σ'⟩
        have ihn := ih n
        rw [hrec] at ihn
        rw [if_neg h1, if_pos h2]
        simpa using ihn
      · rcases hrec : cloneSubst Tph t0ph rT r0 rest (n + 1) with ⟨n', σ'⟩
        have ihn := ih (n + 1)
        rw [hrec] at ihn
        rw [if_neg h1, if_neg h2]
        simpa using ihn

theorem cloneSubst_mem (Tph t0ph rT r0 : Sym) :
    ∀ (ks : List Sym) (n : Nat) (p : Sym × Sym),
    p ∈ (cloneSubst Tph t0ph rT r0 ks n).2 →
      (p.1 = Tph ∧ p.2 = rT) ∨
      (p.1 ≠ Tph ∧ p.1 = t0ph ∧ p.2 = r0) ∨
      (p.1 ≠ Tph ∧ p.1 ≠ t0ph ∧ p.2.rows = p.1.rows ∧ p.2.cols = p.1.cols ∧
        n ≤ p.2.id) := by
  intro ks
  induction ks with
  | nil => intro n p hp; simp [cloneSubst] at hp
  | cons k rest ih =>
    intro n p hp
    unfold cloneSubst at hp
    by_cases h1 : k = Tph
    · rcases hrec : cloneSubst Tph t0ph rT r0 rest n with ⟨n', σ'⟩
      rw [if_pos h1, hrec] at hp
      simp only at hp
      rcases List.mem_cons.1 hp with he | ht
      · subst he
        exact Or.inl ⟨h1, rfl⟩
      · exact ih n p (by rw [hrec]; exact ht)
    · by_cases h2 : k = t0ph
      · rcases hrec : cloneSubst Tph t0ph rT r0 rest n with ⟨n', σ'⟩
        rw [if_neg h1, if_pos h2, hrec] at hp
        simp only at hp
        rcases List.mem_cons.1 hp with he | ht
        · subst he
          exact Or.inr (Or.inl ⟨h1, h2, rfl⟩)
        · exact ih n p (by rw [hrec]; exact ht)
      · rcases hrec : cloneSubst Tph t0ph rT r0 rest (n + 1) with ⟨n', σ'⟩
        rw [if_neg h1, if_neg h2, hrec] at hp
        simp only at hp
        rcases List.mem_cons.1 hp with he | ht
        · subst he
          exact Or.inr (Or.inr ⟨h1, h2, rfl, rfl, Nat.le_refl n⟩)
        · rcases ih (n + 1) p (by rw [hrec]; exact ht) with a | b | c
          · exact Or.inl a
          · exact Or.inr (Or.inl b)
          · exact Or.inr (Or.inr ⟨c.1, c.2.1, c.2.2.1, c.2.2.2.1,
              Nat.le_trans (Nat.le_succ n) c.2.2.2.2⟩)

theorem copyPh_tt0 (self : Stage) : ∀ (σ : List (Sym × Sym)) (ret : Stage),
    (copyPlaceholderEntries self σ ret).tt0 = ret.tt0 := by
  intro σ
  induction σ with
  | nil => intro ret; rfl
  | cons p rest ih => intro ret; simp [copyPlaceholderEntries] at ih ⊢; rw [ih]

theorem copyPh_tT (self : Stage) : ∀ (σ : List (Sym × Sym)) (ret : Stage),
    (copyPlaceholderEntries self σ ret).tT = ret.tT := by
  intro σ
  induction σ with
  | nil => intro ret; rfl
  | cons p rest ih => intro ret; simp [copyPlaceholderEntries] at ih ⊢; rw [ih]

theorem copyPh_Tph (self : Stage) : ∀ (σ : List (Sym × Sym)) (ret : Stage),
    (copyPlaceholderEntries self σ ret).Tph = ret.Tph := by
  intro σ
  induction σ with
  | nil => intro ret; rfl
  | cons p rest ih => intro ret; simp [copyPlaceholderEntries] at ih ⊢; rw [ih]

theorem copyPh_t0ph (self : Stage) : ∀ (σ : List (Sym × Sym)) (ret : Stage),
    (copyPlaceholderEntries self σ ret).t0ph = ret.t0ph := by
  intro σ
  induction σ with
  | nil => intro ret; rfl
  | cons p rest ih => intro ret; simp [copyPlaceholderEntries] at ih ⊢; rw [ih]

theorem substL_take (σ : List (Sym × Sym)) :
    ∀ (A : List Expr) (x : Expr) (B : List Expr),
    (substituteL σ (A ++ x :: B)).take A.length = substituteL σ A := by
  intro A
  induction A with
  | nil => intro x B; simp [substituteL]
  | cons a A ih =>
    intro x B
    simp only [substituteL, List.map_cons, List.cons_append, List.length_cons,
      List.take_succ_cons]
    have h := ih x B
    simp only [substituteL] at h
    rw [h]

theorem substL_get (σ : List (Sym × Sym)) :
    ∀ (A : List Expr) (x : Expr) (B : List Expr),
    (substituteL σ (A ++ x :: B))[A.length]?.getD (.const 0) = substExpr σ x := by
  intro A
  induction A with
  | nil => intro x B; simp [substituteL]
  | cons a A ih =>
    intro x B
    simp only [substituteL, List.map_cons, List.cons_append, List.length_cons]
    have h := ih x B
    simp only [substituteL] at h
    simpa using h

theorem substL_drop (σ : List (Sym × Sym)) :
    ∀ (A : List Expr) (x : Expr) (B : List Expr),
    (substituteL σ (A ++ x :: B)).drop (A.length + 1) = substituteL σ B := by
  intro A
  induction A with
  | nil => intro x B; simp [substituteL]
  | cons a A ih =>
    intro x B
    simp only [substituteL, List.map_cons, List.cons_append, List.length_cons,
      List.drop_succ_cons]
    have h := ih x B
    simp only [substituteL] at h
    exact h

theorem substL_zip {β : Type} (σ : List (Sym × Sym)) (v : List (Expr × β)) :
    (substituteL σ (v.map Prod.fst)).zip (v.map Prod.snd) =
      v.map fun p => (substExpr σ p.1, p.2) := by
  have h := zip_subst (substExpr σ) v []
  simpa [substituteL] using h

/-- C3, amended: cloning with no overrides freshly mints only the
placeholder symbols: the substitution built by clone sends the original
T and t0 placeholders to the T and t0 placeholders of the clone and
every other placeholder key to a fresh symbol (identifier at or beyond
the entering supply) of identical shape; the constraints, the objective
and the initial-guess keys are rewritten through that map in one single
bulk substitution over their union; the state, control and algebraic
symbol lists and the time symbol, however, are shared with the original,
not replaced. -/
theorem C3_clone_fresh_placeholders_shared_symbols (s : Stage) (w : World) :
    (s.clone w none none true).1 = none ∧
    (s.clone w none none true).2.1.states = s.states ∧
    (s.clone w none none true).2.1.controls = s.controls ∧
    (s.clone w none none true).2.1.algebraics = s.algebraics ∧
    (s.clone w none none true).2.1.tsym = s.tsym ∧
    (s.clone w none none true).2.1.tT = s.tT ∧
    (s.clone w none none true).2.1.tt0 = s.tt0 ∧
    (s.clone w none none true).2.1.Tph = ⟨w.fresh + 1, 1, 1⟩ ∧
    (s.clone w none none true).2.1.t0ph = ⟨w.fresh + 1 + 1, 1, 1⟩ ∧
    (cloneSigma s w).map Prod.fst = s.placeholders.map Prod.fst ∧
    (∀ p ∈ cloneSigma s w,
      (p.1 = s.Tph ∧ p.2 = ⟨w.fresh + 1, 1, 1⟩) ∨
      (p.1 ≠ s.Tph ∧ p.1 = s.t0ph ∧ p.2 = ⟨w.fresh + 1 + 1, 1, 1⟩) ∨
      (p.1 ≠ s.Tph ∧ p.1 ≠ s.t0ph ∧ p.2.rows = p.1.rows ∧ p.2.cols = p.1.cols ∧
        w.fresh + 1 + 1 + 1 ≤ p.2.id)) ∧
    (s.clone w none none true).2.1.objective =
      substExpr (cloneSigma s w) s.objective ∧
    (s.clone w none none true).2.1.constraints =
      s.constraints.map (fun kv => (kv.1, kv.2.map fun p =>
        (substExpr (cloneSigma s w) p.1, p.2))) ∧
    (s.clone w none none true).2.1.initial =
      s.initial.map fun p => (substExpr (cloneSigma s w) p.1, p.2) := by
  refine ⟨?_, ?_, ?_, ?_, ?_, ?_, ?_, ?_, ?_,
    cloneSubst_keys s.Tph s.t0ph _ _ _ _,
    fun p hp => cloneSubst_mem s.Tph s.t0ph _ _ _ _ p hp, ?_, ?_, ?_⟩
  all_goals
    simp [Stage.clone, mkStage, Stage.createPlaceholderExpr, freshSym, Expr.shape,
      Stage.checkFreeTime, Stage.checkFreeTimeT0, Stage.checkFreeTimeT,
      markPhDirty_fresh, setTranscribed_fresh,
      copyPh_tt0, copyPh_tT, copyPh_Tph, copyPh_t0ph, cloneSigma]
  all_goals
    have hidx : (List.map (List.length ∘ fun kv => List.map Prod.fst kv.2)
        s.constraints).sum =
        ((List.map (fun kv => List.map Prod.fst kv.2) s.constraints).flatten).length := by
      simp
  · rw [hidx, substL_get]
  · rw [hidx, substL_take]
    exact rebuildConstraints_spec _ s.constraints
  · rw [hidx, substL_drop, substL_zip]

/-- Witness for the amended C3 on a concrete stage with one state: the
clone succeeds, shares the state list, has the bulk-substituted
objective, and the substitution pair for the original T placeholder maps
to the T placeholder of the clone. -/
theorem C3_witness :
    (exStage1.clone exW1 none none true).1 = none ∧
    (exStage1.clone exW1 none none true).2.1.states = exStage1.states ∧
    (exStage1.clone exW1 none none true).2.1.objective =
      substExpr (cloneSigma exStage1 exW1) exStage1.objective ∧
    ((exStage1.Tph, (⟨5, 1, 1⟩ : Sym)).1 = exStage1.Tph ∧
      (exStage1.Tph, (⟨5, 1, 1⟩ : Sym)).2 = ⟨exW1.fresh + 1, 1, 1⟩) := by
  have h := C3_clone_fresh_placeholders_shared_symbols exStage1 exW1
  refine ⟨h.1, h.2.1, h.2.2.2.2.2.2.2.2.2.2.2.1, ?_⟩
  rcases h.2.2.2.2.2.2.2.2.2.2.1 (exStage1.Tph, ⟨5, 1, 1⟩) (by decide) with a | b | c
  · exact a
  · exact absurd rfl b.1
  · exact absurd rfl c.1

end Rockit
